import Mathlib

set_option linter.unusedVariables false

/-!
# Verification of the slideshow video generator (`pythontest.py`)

A shallow embedding of the program's pure decision logic: the orchestrator's
timing arithmetic and segment construction loop (`main`), the audio trimmer's
loop-flag decision (`adjust_music`), the concatenator's single/multi segment
branching (`concatenate_videos`), the per-stage audio-stream validation, the
pre-flight control flow of `main`, and the caption-rectangle geometry of
`process_image`.

Filesystem and external-process effects are abstracted: path existence and the
audio-stream probe become boolean oracles, external encoder invocations are
assumed to succeed unless a claim is about the failure path, and `os.path`
operations are modelled in their POSIX form (`os.path.join` as slash
concatenation, `os.path.abspath` as the identity on the already-joined path).
Python floats are modelled as exact rationals (`ℚ`); Python's integer floor
division `//` is `Int.fdiv`.
-/

/-- `FFMPEG_PATH` constant from the source. -/
def FFMPEG_PATH : String := "C:\\ffmpeg-master-latest-win64-gpl-shared\\bin\\ffmpeg.exe"

/-- `TARGET_WIDTH` constant from the source. -/
def TARGET_WIDTH : ℤ := 1920

/-- `TARGET_HEIGHT` constant from the source. -/
def TARGET_HEIGHT : ℤ := 1080

/-- `TEMP_DIR` constant from the source. -/
def TEMP_DIR : String := "temp"

/-- squote: a single-quote character as a string (used in the source's f-strings). -/
def squote : String := String.singleton (Char.ofNat 39)

/-- `os.path.join`, modelled in POSIX form. -/
def joinPath (a b : String) : String := a ++ "/" ++ b

/-- `os.path.isabs`, modelled in POSIX form. -/
def isAbsPath (p : String) : Bool := p.startsWith "/"

/-- Python `f"{index:02d}"` zero-padding to two digits. -/
def pad2 (n : ℕ) : String := if n < 10 then "0" ++ toString n else toString n

/-- Orchestrator timing: `duration_per_image = args.duration / len(image_paths)`
(Python float division, modelled exactly in `ℚ`). -/
def duration_per_image (total_duration : ℤ) (image_count : ℕ) : ℚ :=
  (total_duration : ℚ) / (image_count : ℚ)

/-- One per-image video segment as assembled by the orchestrator loop in `main`:
which image it renders, which music track it carries, the audio start offset,
its duration, and its scratch-file name. -/
structure Segment where
  imagePath : String
  musicPath : String
  startTime : ℚ
  duration : ℚ
  videoPath : String
  deriving Repr, DecidableEq

instance : Inhabited Segment :=
  ⟨{ imagePath := "", musicPath := "", startTime := 0, duration := 0, videoPath := "" }⟩

/-- The orchestrator loop of `main` (lines 246-255): for `i, image_path` in
`enumerate(image_paths)`, pick `music_paths[i % len(music_paths)]`, set
`start_time = i * duration_per_image`, and emit segment file
`segment_{i+1}.mp4`, appending to the segment list in loop order. -/
def buildSegments (image_paths music_paths : List String) (total_duration : ℤ) : List Segment :=
  let dpi : ℚ := duration_per_image total_duration image_paths.length
  (List.range image_paths.length).map fun i =>
    { imagePath := image_paths.getD i ""
      musicPath := music_paths.getD (i % music_paths.length) ""
      startTime := (i : ℚ) * dpi
      duration := dpi
      videoPath := "segment_" ++ toString (i + 1) ++ ".mp4" }

lemma buildSegments_length (image_paths music_paths : List String) (d : ℤ) :
    (buildSegments image_paths music_paths d).length = image_paths.length := by
  simp [buildSegments]

lemma range_map_getD (l : List String) :
    (List.range l.length).map (fun i => l.getD i "") = l := by
  apply List.ext_getElem
  · simp
  · intro i h1 h2
    simp [List.getD_eq_getElem?_getD, List.getElem?_eq_getElem h2]

/-- C1: For every non-empty image list, the orchestrator produces exactly one video
segment per input image, and the segments, in the order passed to the
concatenator, are built from the images in input-list order (segment i comes
from image i). -/
theorem orchestrator_one_segment_per_image_in_order
    (image_paths music_paths : List String) (d : ℤ) (h : image_paths ≠ []) :
    (buildSegments image_paths music_paths d).length = image_paths.length ∧
    (buildSegments image_paths music_paths d).map Segment.imagePath = image_paths := by
  refine ⟨buildSegments_length _ _ _, ?_⟩
  simp only [buildSegments, List.map_map]
  exact range_map_getD image_paths

/-- Witness for C1 at a concrete input. -/
theorem orchestrator_one_segment_per_image_in_order_witness :
    (buildSegments ["a.jpg", "b.jpg", "c.jpg"] ["m.mp3"] 9).length = 3 ∧
    (buildSegments ["a.jpg", "b.jpg", "c.jpg"] ["m.mp3"] 9).map Segment.imagePath =
      ["a.jpg", "b.jpg", "c.jpg"] :=
  orchestrator_one_segment_per_image_in_order ["a.jpg", "b.jpg", "c.jpg"] ["m.mp3"] 9
    (by decide)

/-- C2: For every image index `i` and non-empty music list, segment `i` is built
from music track `music_paths[i % len(music_paths)]` — both when there are
fewer music tracks than images and when there are at least as many. -/
theorem segment_music_round_robin
    (image_paths music_paths : List String) (d : ℤ) (i : ℕ)
    (hi : i < image_paths.length) (hm : 0 < music_paths.length) :
    ((buildSegments image_paths music_paths d).getD i default).musicPath =
      music_paths.get ⟨i % music_paths.length, Nat.mod_lt i hm⟩ := by
  simp [buildSegments, List.getD_eq_getElem?_getD, List.getElem?_map,
    List.getElem?_range, hi, List.getD_eq_getElem?_getD,
    List.getElem?_eq_getElem (Nat.mod_lt i hm)]

/-- Witness for C2: fewer musics than images (3 images, 2 musics, i = 2) —
segment 2 uses music 2 % 2 = 0. -/
theorem segment_music_round_robin_witness :
    ((buildSegments ["a", "b", "c"] ["m0", "m1"] 9).getD 2 default).musicPath = "m0" :=
  segment_music_round_robin ["a", "b", "c"] ["m0", "m1"] 9 2 (by decide) (by decide)

/-- C3: `duration_per_image` is the total duration divided by the image count, so
multiplying back by the image count recovers the requested total duration
exactly (the floating-point computation modelled in `ℚ`). -/
theorem duration_per_image_times_count
    (total_duration : ℤ) (image_count : ℕ)
    (hd : 0 < total_duration) (hn : 0 < image_count) :
    duration_per_image total_duration image_count * (image_count : ℚ) =
      (total_duration : ℚ) := by
  have hne : (image_count : ℚ) ≠ 0 := by
    exact_mod_cast Nat.pos_iff_ne_zero.mp hn
  simp [duration_per_image, div_mul_cancel₀ _ hne]

/-- Witness for C3 at duration 9, 3 images. -/
theorem duration_per_image_times_count_witness :
    duration_per_image 9 3 * (3 : ℚ) = 9 :=
  duration_per_image_times_count 9 3 (by decide) (by decide)

/-- C4: The audio start offset of segment `i` is `i * duration_per_image`; in the
concrete 3-image, duration-9 scenario the start times are exactly 0, 3, 6 and
every segment lasts 3 seconds. -/
theorem segment_start_times
    (image_paths music_paths : List String) (d : ℤ) (i : ℕ)
    (hi : i < image_paths.length) :
    ((buildSegments image_paths music_paths d).getD i default).startTime =
      (i : ℚ) * duration_per_image d image_paths.length ∧
    (buildSegments ["a", "b", "c"] ["m"] 9).map Segment.startTime = [0, 3, 6] ∧
    (buildSegments ["a", "b", "c"] ["m"] 9).map Segment.duration = [3, 3, 3] := by
  refine ⟨?_, ?_, ?_⟩
  · simp [buildSegments, List.getD_eq_getElem?_getD, List.getElem?_map,
      List.getElem?_range, hi]
  · norm_num [buildSegments, duration_per_image, List.range_succ]
  · norm_num [buildSegments, duration_per_image, List.range_succ]

/-- Witness for C4 at i = 2 of a 3-image list. -/
theorem segment_start_times_witness :
    ((buildSegments ["a", "b", "c"] ["m"] 9).getD 2 default).startTime =
      (2 : ℚ) * duration_per_image 9 3 :=
  (segment_start_times ["a", "b", "c"] ["m"] 9 2 (by decide)).1

/-- Scratch path of the trimmed clip: `adjusted_music_{index:02d}.mp3` in the
scratch directory (`adjust_music`, line 170). -/
def adjustedPath (temp_dir : String) (index : ℕ) : String :=
  joinPath temp_dir ("adjusted_music_" ++ pad2 index ++ ".mp3")

/-- The external-encoder invocation assembled by `adjust_music` (lines 171-178):
the base trim command, with `-stream_loop -1` inserted at positions 4 and 5
when `start_time + duration > music_duration`. -/
def adjust_music_cmd (music_path adjusted_path : String)
    (duration start_time music_duration : ℚ) : List String :=
  let cmd := [FFMPEG_PATH, "-y", "-i", music_path, "-ss", toString start_time,
              "-t", toString duration, "-vn", "-c:a", "mp3", "-b:a", "192k", adjusted_path]
  if start_time + duration > music_duration then
    cmd.take 4 ++ ["-stream_loop", "-1"] ++ cmd.drop 4
  else cmd

/-- C5: The audio trimmer inserts the infinite-loop flag `-stream_loop -1` into
the encoder invocation if and only if `start_time + duration` exceeds the
probed source duration, and in either case the invocation carries the trim
option `-t` followed by the requested duration, so the output clip is cut to
exactly `duration` seconds. -/
theorem adjust_music_loop_flag_iff
    (music_path adjusted_path : String) (duration start_time music_duration : ℚ) :
    ((adjust_music_cmd music_path adjusted_path duration start_time music_duration).get? 4 =
        some "-stream_loop" ↔ start_time + duration > music_duration) ∧
    (∃ j, (adjust_music_cmd music_path adjusted_path duration start_time music_duration).get? j =
        some "-t" ∧
      (adjust_music_cmd music_path adjusted_path duration start_time music_duration).get? (j + 1) =
        some (toString duration)) := by
  unfold adjust_music_cmd
  by_cases h : start_time + duration > music_duration
  · simp only [if_pos h]
    exact ⟨by simp [h], ⟨8, rfl, rfl⟩⟩
  · simp only [if_neg h]
    constructor
    · constructor
      · intro hcontra
        simp at hcontra
      · intro hcontra
        exact absurd hcontra h
    · exact ⟨6, rfl, rfl⟩

/-- Witness for C5 (the theorem has no hypothesis; this instantiates it
concretely anyway: a 4-second source, trim window 3+3 > 4, flag present). -/
theorem adjust_music_loop_flag_iff_witness :
    (adjust_music_cmd "m.mp3" "temp/adjusted_music_01.mp3" 3 3 4).get? 4 =
      some "-stream_loop" :=
  (adjust_music_loop_flag_iff "m.mp3" "temp/adjusted_music_01.mp3" 3 3 4).1.mpr (by norm_num)

/-- `adjust_music` (lines 168-187), validation flow: run the trim command
(external encoder assumed to succeed), then probe the trimmed clip for an
audio stream and raise if none is found. `hasAudio` is the
`check_audio_stream` probe oracle. -/
def adjust_music_run (music_path : String) (duration start_time music_duration : ℚ)
    (index : ℕ) (temp_dir : String) (hasAudio : String → Bool) : Except String String :=
  let adjusted := adjustedPath temp_dir index
  let _cmd := adjust_music_cmd music_path adjusted duration start_time music_duration
  if hasAudio adjusted then Except.ok adjusted
  else Except.error ("Adjusted music " ++ adjusted ++ " has no audio")

/-- `create_image_video_with_audio` (lines 114-131): trim the music via
`adjust_music`, encode the segment (assumed to succeed), then probe the
segment for an audio stream and raise if none; returns the trimmed clip's
path. -/
def create_image_video_with_audio_run (image_path music_path : String)
    (duration start_time music_duration : ℚ) (output_path : String)
    (index : ℕ) (temp_dir : String) (hasAudio : String → Bool) : Except String String := do
  let adjusted_music ← adjust_music_run music_path duration start_time music_duration
    index temp_dir hasAudio
  if hasAudio output_path then pure adjusted_music
  else Except.error ("Audio missing in segment " ++ output_path)

/-- One manifest line written by `concatenate_videos` (line 142):
`file '<abspath(video)>'` followed by a newline (`os.path.abspath` modelled as
the identity). -/
def manifestLine (video : String) : String :=
  "file " ++ squote ++ video ++ squote ++ "\n"

/-- Observable outcome of a successful `concatenate_videos` call: whether the
single-segment copy branch ran, the manifest lines written (none if the
manifest file was never written), whether the output was probed for audio,
and the returned path. -/
structure ConcatOutcome where
  copiedSingle : Bool
  manifestLines : Option (List String)
  audioChecked : Bool
  returned : String
  deriving Repr, DecidableEq

/-- `concatenate_videos` (lines 134-153): with exactly one segment, copy it to
the destination and return the path `temp_dir/video_list.txt` without writing
that file and without probing the destination; otherwise write the manifest
(one line per segment, in order), run the concat command (assumed to
succeed), probe the result for an audio stream — raising if none — and
return the manifest path. -/
def concatenate_videos_run (video_paths : List String) (output_path temp_dir : String)
    (hasAudio : String → Bool) : Except String ConcatOutcome :=
  if video_paths.length = 1 then
    Except.ok { copiedSingle := true, manifestLines := none, audioChecked := false,
                returned := joinPath temp_dir "video_list.txt" }
  else
    let list_file := joinPath temp_dir "video_list.txt"
    if hasAudio output_path then
      Except.ok { copiedSingle := false, manifestLines := some (video_paths.map manifestLine),
                  audioChecked := true, returned := list_file }
    else
      Except.error ("Audio missing in concatenated video " ++ output_path)

/-- The soundtrack-extraction step of `main` (lines 262-267): extract
`extracted_audio.mp3` (encoder assumed to succeed), probe it for an audio
stream, and raise if none. -/
def extract_audio_run (temp_dir : String) (hasAudio : String → Bool) : Except String String :=
  let extracted := joinPath temp_dir "extracted_audio.mp3"
  if hasAudio extracted then Except.ok extracted
  else Except.error ("Extracted audio " ++ extracted ++ " has no audio")

/-- `attach_audio_to_video` (lines 190-211): remux (encoder assumed to
succeed), probe the final video for an audio stream, and raise if none. -/
def attach_audio_to_video_run (video_path audio_path output_path : String)
    (duration : ℚ) (hasAudio : String → Bool) : Except String Unit :=
  if hasAudio output_path then Except.ok ()
  else Except.error ("Audio missing in final video " ++ output_path)

/-- C6 counterexample: with a probe that reports no audio stream anywhere, the
single-segment concatenation still succeeds without ever probing its output —
the claim that every audio-carrying artifact (including the single-segment
copy case) is checked, with a fatal error on a missing stream, is false. -/
theorem concat_single_segment_skips_audio_check :
    concatenate_videos_run ["temp/segment_1.mp4"] "temp/concatenated.mp4" "temp"
        (fun _ => false) =
      Except.ok { copiedSingle := true, manifestLines := none, audioChecked := false,
                  returned := "temp/video_list.txt" } := rfl

/-- C6 (amended): every stage except the single-segment concatenation copy
probes its audio-carrying artifact and raises a fatal error when the probe
reports no audio stream: the trimmed clip, the segment, the multi-segment
concatenated video, the extracted soundtrack, and the final video are all
checked; the single-segment copy branch alone returns successfully without
probing. -/
theorem audio_checks_every_stage_except_single_concat :
    (∀ (pr : String → Bool) mp d st md i td, pr (adjustedPath td i) = false →
        (adjust_music_run mp d st md i td pr).isOk = false) ∧
    (∀ (pr : String → Bool) ip mp d st md op i td, pr op = false →
        (create_image_video_with_audio_run ip mp d st md op i td pr).isOk = false) ∧
    (∀ (pr : String → Bool) (vs : List String) op td, vs.length ≠ 1 → pr op = false →
        (concatenate_videos_run vs op td pr).isOk = false) ∧
    (∀ (pr : String → Bool) td, pr (joinPath td "extracted_audio.mp3") = false →
        (extract_audio_run td pr).isOk = false) ∧
    (∀ (pr : String → Bool) vp ap op d, pr op = false →
        (attach_audio_to_video_run vp ap op d pr).isOk = false) ∧
    (∀ (pr : String → Bool) (vs : List String) op td, vs.length = 1 →
        (concatenate_videos_run vs op td pr).isOk = true ∧
        ∀ o, concatenate_videos_run vs op td pr = Except.ok o → o.audioChecked = false) := by
  refine ⟨?_, ?_, ?_, ?_, ?_, ?_⟩
  · intro pr mp d st md i td h
    simp [adjust_music_run, h, Except.isOk, Except.toBool]
  · intro pr ip mp d st md op i td h
    unfold create_image_video_with_audio_run adjust_music_run
    by_cases ha : pr (adjustedPath td i) <;>
      simp [ha, h, Bind.bind, Except.bind, Except.isOk, Except.toBool]
  · intro pr vs op td hlen h
    simp [concatenate_videos_run, hlen, h, Except.isOk, Except.toBool]
  · intro pr td h
    simp [extract_audio_run, h, Except.isOk, Except.toBool]
  · intro pr vp ap op d h
    simp [attach_audio_to_video_run, h, Except.isOk, Except.toBool]
  · intro pr vs op td hlen
    refine ⟨by simp [concatenate_videos_run, hlen, Except.isOk, Except.toBool], ?_⟩
    intro o ho
    simp [concatenate_videos_run, hlen] at ho
    simp [← ho]

/-- Witness for the amended C6, with the all-false probe at concrete paths. -/
theorem audio_checks_every_stage_except_single_concat_witness :
    ((adjust_music_run "m.mp3" 3 0 4 1 "temp" (fun _ => false)).isOk = false) ∧
    ((create_image_video_with_audio_run "img.jpg" "m.mp3" 3 0 4 "temp/segment_1.mp4" 1 "temp"
        (fun _ => false)).isOk = false) ∧
    ((concatenate_videos_run ["s1", "s2"] "temp/concatenated.mp4" "temp"
        (fun _ => false)).isOk = false) ∧
    ((extract_audio_run "temp" (fun _ => false)).isOk = false) ∧
    ((attach_audio_to_video_run "temp/concatenated.mp4" "temp/extracted_audio.mp3"
        "final_video.mp4" 9 (fun _ => false)).isOk = false) ∧
    ((concatenate_videos_run ["s1"] "temp/concatenated.mp4" "temp"
        (fun _ => false)).isOk = true) :=
  ⟨audio_checks_every_stage_except_single_concat.1 _ "m.mp3" 3 0 4 1 "temp" rfl,
   audio_checks_every_stage_except_single_concat.2.1 _ "img.jpg" "m.mp3" 3 0 4
     "temp/segment_1.mp4" 1 "temp" rfl,
   audio_checks_every_stage_except_single_concat.2.2.1 _ ["s1", "s2"]
     "temp/concatenated.mp4" "temp" (by decide) rfl,
   audio_checks_every_stage_except_single_concat.2.2.2.1 _ "temp" rfl,
   audio_checks_every_stage_except_single_concat.2.2.2.2.1 _ "temp/concatenated.mp4"
     "temp/extracted_audio.mp3" "final_video.mp4" 9 rfl,
   (audio_checks_every_stage_except_single_concat.2.2.2.2.2 _ ["s1"]
     "temp/concatenated.mp4" "temp" rfl).1⟩

/-- C9: With exactly one segment, the concatenator copies it to the destination
and returns the path `temp_dir/video_list.txt` even though that manifest file
is never written; in every other case the manifest is written with one line
per segment, in input order, and the returned path refers to it. -/
theorem concat_manifest_behavior (video_paths : List String) (output_path temp_dir : String)
    (hasAudio : String → Bool) :
    (video_paths.length = 1 →
      concatenate_videos_run video_paths output_path temp_dir hasAudio =
        Except.ok { copiedSingle := true, manifestLines := none, audioChecked := false,
                    returned := joinPath temp_dir "video_list.txt" }) ∧
    (video_paths.length ≠ 1 →
      ∀ o, concatenate_videos_run video_paths output_path temp_dir hasAudio = Except.ok o →
        o.copiedSingle = false ∧
        o.manifestLines = some (video_paths.map manifestLine) ∧
        o.returned = joinPath temp_dir "video_list.txt") := by
  constructor
  · intro hlen
    simp [concatenate_videos_run, hlen]
  · intro hlen o ho
    simp only [concatenate_videos_run, if_neg hlen] at ho
    by_cases ha : hasAudio output_path
    · simp only [if_pos ha] at ho
      cases ho
      exact ⟨rfl, rfl, rfl⟩
    · simp [if_neg ha] at ho

/-- Witness for C9: the two-segment case writes a two-line manifest and
returns its path; the one-segment case copies without writing it. -/
theorem concat_manifest_behavior_witness :
    concatenate_videos_run ["s1"] "out.mp4" "temp" (fun _ => true) =
      Except.ok { copiedSingle := true, manifestLines := none, audioChecked := false,
                  returned := "temp/video_list.txt" } ∧
    (∀ o, concatenate_videos_run ["s1", "s2"] "out.mp4" "temp" (fun _ => true) =
        Except.ok o →
      o.copiedSingle = false ∧
      o.manifestLines = some (["s1", "s2"].map manifestLine) ∧
      o.returned = "temp/video_list.txt") :=
  ⟨(concat_manifest_behavior ["s1"] "out.mp4" "temp" (fun _ => true)).1 rfl,
   (concat_manifest_behavior ["s1", "s2"] "out.mp4" "temp" (fun _ => true)).2 (by decide)⟩

/-- The `check_ffmpeg` diagnostic (lines 20-23). -/
def ffmpeg_not_found_msg : String :=
  "FFmpeg not found at " ++ squote ++ FFMPEG_PATH ++ squote ++
    ". Download from https://github.com/BtbN/FFmpeg-Builds/releases and set FFMPEG_PATH to the full path of ffmpeg.exe."

/-- The `resolve_path` diagnostic (line 29). -/
def file_not_found_msg (p : String) : String :=
  "File " ++ squote ++ p ++ squote ++ " not found."

/-- The absolute path computed by `resolve_path` (line 27): join against the
script directory unless already absolute (`os.path.abspath` normalization
modelled as the identity). -/
def resolvedPath (path script_dir : String) : String :=
  if isAbsPath path then path else joinPath script_dir path

/-- `resolve_path` (lines 26-30): compute the absolute path and raise
`FileNotFoundError` when it does not exist. `pathExists` is the
`os.path.exists` oracle. -/
def resolve_path (path script_dir : String) (pathExists : String → Bool) :
    Except String String :=
  let abs_path := resolvedPath path script_dir
  if pathExists abs_path then Except.ok abs_path
  else Except.error (file_not_found_msg abs_path)

/-- The list comprehensions of `main` (lines 235-236): resolve each path in
order, stopping at the first failure. -/
def resolve_all (paths : List String) (script_dir : String) (pathExists : String → Bool) :
    Except String (List String) :=
  match paths with
  | [] => Except.ok []
  | p :: rest =>
    match resolve_path p script_dir pathExists with
    | Except.error e => Except.error e
    | Except.ok a =>
      match resolve_all rest script_dir pathExists with
      | Except.error e => Except.error e
      | Except.ok as => Except.ok (a :: as)

/-- The environment `main` runs against: whether the encoder binary is found
(`check_ffmpeg`), the `os.path.exists` oracle, and the first error (if any)
raised by the processing stages that run after the pre-flight checks. -/
structure Env where
  ffmpegFound : Bool
  pathExists : String → Bool
  processingError : Option String

/-- How a `main` invocation ends: a printed diagnostic followed by a normal
return (the two `except ... print(e); return` blocks), an uncaught exception,
or the success path. -/
inductive MainOutcome where
  | cleanReturn (diagnostic : String)
  | raised (err : String)
  | success
  deriving Repr, DecidableEq

/-- Control flow of `main` (lines 224-275): `check_ffmpeg` failure is caught,
printed and returns; a `FileNotFoundError` from resolving the image list and
then the music list is caught, printed and returns; any error raised by the
stages after these pre-flight checks propagates uncaught. -/
def main_run (env : Env) (images musics : List String) (script_dir : String) : MainOutcome :=
  if env.ffmpegFound = false then MainOutcome.cleanReturn ffmpeg_not_found_msg
  else
    match resolve_all images script_dir env.pathExists with
    | Except.error e => MainOutcome.cleanReturn e
    | Except.ok _ =>
      match resolve_all musics script_dir env.pathExists with
      | Except.error e => MainOutcome.cleanReturn e
      | Except.ok _ =>
        match env.processingError with
        | some e => MainOutcome.raised e
        | none => MainOutcome.success

lemma resolve_all_isOk_iff (paths : List String) (sd : String) (pe : String → Bool) :
    (resolve_all paths sd pe).isOk = true ↔
      ∀ p ∈ paths, pe (resolvedPath p sd) = true := by
  induction paths with
  | nil => simp [resolve_all, Except.isOk, Except.toBool]
  | cons p rest ih =>
    simp only [List.forall_mem_cons]
    by_cases hp : pe (resolvedPath p sd)
    · cases hr : resolve_all rest sd pe with
      | error e =>
        rw [hr] at ih
        have hrest : ¬ ∀ q ∈ rest, pe (resolvedPath q sd) = true := by
          intro hall
          have hbad := ih.mpr hall
          simp [Except.isOk, Except.toBool] at hbad
        simp [resolve_all, resolve_path, hp, hr, Except.isOk, Except.toBool, hrest]
      | ok as =>
        rw [hr] at ih
        have hrest : ∀ q ∈ rest, pe (resolvedPath q sd) = true :=
          ih.mp (by simp [Except.isOk, Except.toBool])
        constructor
        · intro hok
          exact ⟨hp, hrest⟩
        · intro hall
          simp [resolve_all, resolve_path, hp, hr, Except.isOk, Except.toBool]
    · simp [resolve_all, resolve_path, hp, Except.isOk, Except.toBool]

lemma resolve_all_error_of_missing (paths : List String) (sd : String) (pe : String → Bool)
    (h : ∃ p ∈ paths, pe (resolvedPath p sd) = false) :
    ∃ e, resolve_all paths sd pe = Except.error e := by
  cases hr : resolve_all paths sd pe with
  | error e => exact ⟨e, rfl⟩
  | ok as =>
    exfalso
    obtain ⟨p, hmem, hfalse⟩ := h
    have hok : (resolve_all paths sd pe).isOk = true := by
      simp [hr, Except.isOk, Except.toBool]
    have := (resolve_all_isOk_iff paths sd pe).mp hok p hmem
    rw [this] at hfalse
    exact Bool.noConfusion hfalse

/-- C7: When a pre-flight check fails — the encoder binary is not found, or a
supplied image or music path does not exist after resolution against the base
directory — `main` prints a diagnostic and returns normally; when the
pre-flight checks pass, a failure in the later processing stages propagates
as an uncaught error, and with no failure the run succeeds. -/
theorem main_preflight_vs_processing (env : Env) (images musics : List String)
    (sd : String) :
    (env.ffmpegFound = false →
      main_run env images musics sd = MainOutcome.cleanReturn ffmpeg_not_found_msg) ∧
    (env.ffmpegFound = true →
      (∃ p ∈ images ++ musics, env.pathExists (resolvedPath p sd) = false) →
      ∃ d, main_run env images musics sd = MainOutcome.cleanReturn d) ∧
    (env.ffmpegFound = true →
      (∀ p ∈ images ++ musics, env.pathExists (resolvedPath p sd) = true) →
      ((∀ e, env.processingError = some e →
          main_run env images musics sd = MainOutcome.raised e) ∧
        (env.processingError = none →
          main_run env images musics sd = MainOutcome.success))) := by
  refine ⟨?_, ?_, ?_⟩
  · intro hff
    simp [main_run, hff]
  · intro hff hmiss
    simp only [main_run, hff]
    obtain ⟨p, hmem, hfalse⟩ := hmiss
    rcases List.mem_append.mp hmem with hin | hin
    · obtain ⟨e, he⟩ := resolve_all_error_of_missing images sd env.pathExists ⟨p, hin, hfalse⟩
      exact ⟨e, by simp [he]⟩
    · cases hri : resolve_all images sd env.pathExists with
      | error e => exact ⟨e, by simp [hri]⟩
      | ok as =>
        obtain ⟨e, he⟩ :=
          resolve_all_error_of_missing musics sd env.pathExists ⟨p, hin, hfalse⟩
        exact ⟨e, by simp [hri, he]⟩
  · intro hff hall
    have hi : (resolve_all images sd env.pathExists).isOk = true :=
      (resolve_all_isOk_iff images sd env.pathExists).mpr
        (fun p hp => hall p (List.mem_append.mpr (Or.inl hp)))
    have hm : (resolve_all musics sd env.pathExists).isOk = true :=
      (resolve_all_isOk_iff musics sd env.pathExists).mpr
        (fun p hp => hall p (List.mem_append.mpr (Or.inr hp)))
    cases hri : resolve_all images sd env.pathExists with
    | error e => simp [hri, Except.isOk, Except.toBool] at hi
    | ok as =>
      cases hrm : resolve_all musics sd env.pathExists with
      | error e => simp [hrm, Except.isOk, Except.toBool] at hm
      | ok bs =>
        constructor
        · intro e he
          simp [main_run, hff, hri, hrm, he]
        · intro he
          simp [main_run, hff, hri, hrm, he]

/-- Witness for C7: missing music file with the encoder present gives a clean
return; with all inputs present a processing error propagates. -/
theorem main_preflight_vs_processing_witness :
    (∃ d, main_run
        { ffmpegFound := true,
          pathExists := fun p => p ≠ resolvedPath "/base/m.mp3" "/base",
          processingError := none }
        ["/base/a.jpg"] ["/base/m.mp3"] "/base" = MainOutcome.cleanReturn d) ∧
    main_run
        { ffmpegFound := true, pathExists := fun _ => true,
          processingError := some "boom" }
        ["/base/a.jpg"] ["/base/m.mp3"] "/base" = MainOutcome.raised "boom" :=
  ⟨(main_preflight_vs_processing
      { ffmpegFound := true,
        pathExists := fun p => p ≠ resolvedPath "/base/m.mp3" "/base",
        processingError := none }
      ["/base/a.jpg"] ["/base/m.mp3"] "/base").2.1 rfl
      ⟨"/base/m.mp3", by decide, by simp⟩,
   ((main_preflight_vs_processing
      { ffmpegFound := true, pathExists := fun _ => true,
        processingError := some "boom" }
      ["/base/a.jpg"] ["/base/m.mp3"] "/base").2.2 rfl
      (fun p hp => rfl)).1 "boom" rfl⟩

/-- Caption horizontal position in `process_image` (line 76):
`text_x = (TARGET_WIDTH - text_width) // 2` (Python floor division). -/
def text_x (text_width : ℤ) : ℤ := (TARGET_WIDTH - text_width).fdiv 2

/-- Left edge of the caption backing rectangle (line 80): `text_x - 10`. -/
def rect_x0 (text_width : ℤ) : ℤ := text_x text_width - 10

/-- Right edge of the caption backing rectangle (line 82):
`text_x + text_width + 10`. -/
def rect_x1 (text_width : ℤ) : ℤ := text_x text_width + text_width + 10

/-- C8 counterexample: for a caption whose text width is 1 pixel,
`rect_x0 + rect_x1 = 1919 ≠ 1920` — the claimed identity
`rect_x0 + rect_x1 == target_width` fails for every odd text width because
`(1920 - text_width) // 2` rounds down. -/
theorem caption_rect_not_centered_odd_width :
    rect_x0 1 + rect_x1 1 = 1919 ∧ rect_x0 1 + rect_x1 1 ≠ TARGET_WIDTH := by
  decide

/-- C8 (amended): the caption backing rectangle satisfies
`rect_x0 + rect_x1 = TARGET_WIDTH - (text_width % 2)`: it is exactly centered
(`rect_x0 + rect_x1 = 1920`) when the text width is even, and off by the one
pixel lost to floor division (`= 1919`) when the text width is odd. -/
theorem caption_rect_centering (text_width : ℤ) :
    rect_x0 text_width + rect_x1 text_width = TARGET_WIDTH - text_width % 2 := by
  have h2 : (0 : ℤ) ≤ 2 := by norm_num
  unfold rect_x0 rect_x1 text_x TARGET_WIDTH
  rw [Int.fdiv_eq_ediv _ h2]
  omega

/-- Python string truthiness: `if s:` is taken iff the string is non-empty. -/
def pyTruthy (s : String) : Bool := !(s == "")

/-- The orchestrator's normalization in `main` (line 241):
`text = args.text if args.text else None` — an absent or empty `--text`
argument becomes `None`. -/
def normalize_text : Option String → Option String
  | some s => if pyTruthy s then some s else none
  | none => none

/-- Whether `process_image` draws the top-left overlay (line 67: `if text:`). -/
def drawsOverlay : Option String → Bool
  | some s => pyTruthy s
  | none => false

/-- Whether `process_image` draws the caption banner and caption text
(line 71: `if caption:`). -/
def drawsCaption (caption : String) : Bool := pyTruthy caption

/-- C10: An empty overlay or caption string is treated as absent: the
orchestrator maps an empty `--text` to `None`; the compositor draws the
top-left overlay iff the text is present and non-empty, and draws the caption
banner iff the caption string is non-empty (even though the CLI requires the
caption argument), and the normalization never changes what is drawn. -/
theorem empty_text_treated_as_absent :
    normalize_text (some "") = none ∧
    (∀ t : Option String, drawsOverlay t = true ↔ ∃ s, t = some s ∧ s ≠ "") ∧
    (∀ c : String, drawsCaption c = true ↔ c ≠ "") ∧
    (∀ t : Option String, drawsOverlay (normalize_text t) = drawsOverlay t) := by
  refine ⟨rfl, ?_, ?_, ?_⟩
  · intro t
    cases t with
    | none => simp [drawsOverlay]
    | some s =>
      simp [drawsOverlay, pyTruthy]
  · intro c
    simp [drawsCaption, pyTruthy]
  · intro t
    cases t with
    | none => rfl
    | some s =>
      by_cases h : pyTruthy s <;> simp [normalize_text, drawsOverlay, h]

/-- Witness for C10 at concrete strings: a non-empty text draws the overlay,
the empty caption draws nothing. -/
theorem empty_text_treated_as_absent_witness :
    drawsOverlay (some "hello") = true ∧ drawsCaption "" = false :=
  ⟨(empty_text_treated_as_absent.2.1 (some "hello")).mpr ⟨"hello", rfl, by decide⟩,
   by have h := (empty_text_treated_as_absent.2.2.1 "")
      revert h
      cases hd : drawsCaption "" with
      | false => intro _; rfl
      | true => intro h; exact absurd ((h.mp rfl)) (by simp)⟩
